import Mathlib

/-!
Verification of the crop-advice backend core (`src/services/llmService.js`).

The JavaScript core is shallowly embedded here:
* `parseAdviceResponse` models the regex-based extraction of the six advice
  fields; each JS regex `LABEL:\s*(.+?)(?=\n\n|NEXT:|$)` (flags `i`, `s`) is
  modelled by `extractField` on character lists, with the backtracking
  semantics of `\s*` followed by the lazy group spelled out in
  `matchAfterLabel` and `lazyCapture`.
* `generateCropAdvice` models the single-advice operation; the external
  generative call is an oracle parameter mapping the prompt to either a reply
  (`response.text`, possibly absent) or an upstream error.  The JS `catch`
  block rethrows every failure as `new Error("Failed to generate advice from
  Gemini AI: " + message)`, modelled by a `JSError` value with name `"Error"`.
* `generateBatchAdvice` models `Promise.all` over the per-item calls with a
  deterministic (input-order) choice of the surfaced rejection.
-/

namespace CropAdvice

/-- The whitespace class used by the JS regex `\s` and by
`String.prototype.trim`: the ECMAScript WhiteSpace and LineTerminator sets —
ASCII whitespace, NBSP, the Ogham space mark, the Zs spaces U+2000–U+200A,
line and paragraph separators, the narrow/medium spaces, the ideographic
space, and ZWNBSP. -/
def jsWs (c : Char) : Bool :=
  c == ' ' || c == '\t' || c == '\n' || c == '\r' || c == '\x0b' || c == '\x0c' ||
  c == '\u00A0' || c == '\u1680' ||
  (decide (0x2000 ≤ c.toNat) && decide (c.toNat ≤ 0x200A)) ||
  c == '\u2028' || c == '\u2029' || c == '\u202F' || c == '\u205F' ||
  c == '\u3000' || c == '\uFEFF'

/-- Case folding used by the regex flag `i` (ASCII case-insensitivity). -/
def lc (c : Char) : Char := c.toLower

/-- Case-insensitive "starts with" over character lists. -/
def ciStarts : List Char → List Char → Bool
  | [], _ => true
  | _ :: _, [] => false
  | a :: as, b :: bs => (lc a == lc b) && ciStarts as bs

/-- Does `label` occur case-insensitively anywhere in the text? -/
def hasCI (label : List Char) : List Char → Bool
  | [] => ciStarts label []
  | c :: rest => ciStarts label (c :: rest) || hasCI label rest

/-- Leftmost case-insensitive occurrence of `label`; returns the suffix of the
text that follows the occurrence (the position after the matched label). -/
def findLabel (label : List Char) : List Char → Option (List Char)
  | [] => none
  | c :: rest =>
    if ciStarts label (c :: rest) then some ((c :: rest).drop label.length)
    else findLabel label rest

/-- The lookahead `(?=\n\n|NEXT:|$)` tested at a remaining suffix `rest`:
it holds at end of input or where one of the alternatives starts. -/
def boundary (alts : List (List Char)) (rest : List Char) : Bool :=
  rest.isEmpty || alts.any (fun a => ciStarts a rest)

/-- The lazy dotall group `(.+?)` followed by the lookahead: the shortest
non-empty prefix of the input after which the lookahead holds. -/
def lazyCapture (alts : List (List Char)) : List Char → Option (List Char)
  | [] => none
  | c :: rest =>
    if boundary alts rest then some [c]
    else
      match lazyCapture alts rest with
      | some cs => some (c :: cs)
      | none => none

/-- `\s*(.+?)(?=...)` after a matched label.  The greedy `\s*` first consumes
the maximal whitespace run; if nothing is left for the mandatory `(.+?)` the
engine backtracks one whitespace character (capturing it, after which the
`$` alternative of the lookahead holds at end of input). -/
def matchAfterLabel (alts : List (List Char)) (rest0 : List Char) : Option (List Char) :=
  match rest0.dropWhile jsWs with
  | [] =>
    match rest0.reverse with
    | [] => none
    | c :: _ => some [c]
  | c :: core => lazyCapture alts (c :: core)

/-- The whole regex `LABEL:\s*(.+?)(?=alts)` with flags `i` and `s`:
leftmost label occurrence, then the capture.  (When the leftmost label
occurrence sits at the very end of the text the mandatory group has nothing
to match; no later occurrence can exist, so the whole match fails.) -/
def extractField (label : List Char) (alts : List (List Char)) (text : List Char) :
    Option (List Char) :=
  match findLabel label text with
  | none => none
  | some rest0 => matchAfterLabel alts rest0

/-- `String.prototype.trim` on character lists. -/
def trimL (l : List Char) : List Char :=
  ((l.dropWhile jsWs).reverse.dropWhile jsWs).reverse

def causeL : List Char := "CAUSE:".data
def symptomsL : List Char := "SYMPTOMS:".data
def immediateL : List Char := "IMMEDIATE:".data
def chemicalL : List Char := "CHEMICAL:".data
def organicL : List Char := "ORGANIC:".data
def preventionL : List Char := "PREVENTION:".data

/-- The blank-line lookahead alternative `\n\n`. -/
def nnL : List Char := ['\n', '\n']

/-- The six parsed advice fields. -/
structure Advice where
  cause : String
  symptoms : String
  immediate : String
  chemical : String
  organic : String
  prevention : String
deriving DecidableEq, Repr

def causeFallback : String := "Unable to determine cause"
def symptomsFallback : String := "Unable to determine symptoms"
def immediateFallback : String := "Consult agricultural expert"
def chemicalFallback : String := "Consult local agriculture office"
def organicFallback : String := "Neem oil spray recommended"
def preventionFallback : String := "Maintain proper plant hygiene"

/-- `match ? match[1].trim() : fallback` for one field. -/
def extractOrFallback (label : List Char) (alts : List (List Char)) (fb : String)
    (t : List Char) : String :=
  match extractField label alts t with
  | some m => String.mk (trimL m)
  | none => fb

/-- The six regex extractions of `parseAdviceResponse`, on a string input. -/
def parseFields (t : List Char) : Advice :=
  { cause := extractOrFallback causeL [nnL, symptomsL] causeFallback t
  , symptoms := extractOrFallback symptomsL [nnL, immediateL] symptomsFallback t
  , immediate := extractOrFallback immediateL [nnL, chemicalL] immediateFallback t
  , chemical := extractOrFallback chemicalL [nnL, organicL] chemicalFallback t
  , organic := extractOrFallback organicL [nnL, preventionL] organicFallback t
  , prevention := extractOrFallback preventionL [nnL] preventionFallback t }

/-- `parseAdviceResponse(text)`.  A `none` input models `text` being
`null`/`undefined`, on which the JS `text.match` calls throw, the `catch`
fires and the function throws `Error("Failed to parse AI response")`.
On any string input the regex calls cannot throw and the advice object is
returned. -/
def parseAdviceResponse (text : Option String) : Except String Advice :=
  match text with
  | none => Except.error "Failed to parse AI response"
  | some t => Except.ok (parseFields t.data)

/-- A disease-detection record (confidence as an exact rational). -/
structure DetectionInput where
  crop : String
  disease : String
  severity : String
  confidence : ℚ
deriving DecidableEq, Repr

/-- JS `Number.prototype.toFixed(0)` on the nonnegative range used here:
round to nearest integer, halves away from zero. -/
def toFixed0 (q : ℚ) : ℤ := (q + 1 / 2).floor

/-- The `${(confidence * 100).toFixed(0)}%` fragment of the prompt. -/
def confidenceText (c : ℚ) : String := toString (toFixed0 (c * 100)) ++ "%"

/-- The fixed model identifier `this.modelName`. -/
def modelName : String := "gemini-2.5-flash"

def promptTail : String :=
  ".\n\nProvide concise, practical advice in the following exact format (keep each point to one short sentence):\n\nCAUSE: [State the primary cause in simple terms]\n\nSYMPTOMS: [List 2-3 visible signs]\n\nIMMEDIATE: [One quick action to stop the spread]\n\nCHEMICAL: [One common pesticide/fungicide with dosage]\n\nORGANIC: [One natural remedy]\n\nPREVENTION: [One simple tip to avoid future occurrence]\n\nKeep the language simple and practical for farmers. Focus on actionable advice. If confidence is below 60%, mention a mild caution in the IMMEDIATE step."

/-- The prompt template of `generateCropAdvice`. -/
def buildPrompt (d : DetectionInput) : String :=
  "You are an expert agricultural advisor. A farmer has a " ++ d.crop ++
    " plant infected with " ++ d.disease ++ ". The severity is " ++ d.severity ++
    " and detection confidence is " ++ confidenceText d.confidence ++ promptTail

/-- An error thrown by the external generative call (it may expose a
status code, as the `error.status` logging in the source anticipates). -/
structure UpstreamError where
  message : String
  status : Option Nat
deriving DecidableEq, Repr

/-- Outcome of `this.ai.models.generateContent`: a reply whose `text` field
may be absent, or a thrown upstream error. -/
inductive LLMCallResult where
  | success (text : Option String)
  | failure (e : UpstreamError)
deriving DecidableEq, Repr

/-- A JS error value as thrown by the core: `new Error(message)` has
`name = "Error"` and no `status` property. -/
structure JSError where
  name : String
  message : String
  status : Option Nat
deriving DecidableEq, Repr

/-- The metadata block attached to a successful result. -/
structure AdviceMetadata where
  crop : String
  disease : String
  severity : String
  confidence : ℚ
  generatedAt : String
  model : String
deriving DecidableEq, Repr

/-- The advice object returned by `generateCropAdvice`. -/
structure AdviceResult where
  advice : Advice
  metadata : AdviceMetadata
deriving DecidableEq, Repr

/-- The message prefix of the single `throw new Error(...)` in the catch
block of `generateCropAdvice`. -/
def genFailMessage (m : String) : String :=
  "Failed to generate advice from Gemini AI: " ++ m

/-- `generateCropAdvice(diseaseData)`.  `oracle` maps the prompt to the
outcome of the external call; `now` is the ISO timestamp taken at success.
Every failure — upstream or parse — is rethrown from the one catch block as
a plain `Error` whose message prefixes the cause's message. -/
def generateCropAdvice (oracle : String → LLMCallResult) (d : DetectionInput)
    (now : String) : Except JSError AdviceResult :=
  match oracle (buildPrompt d) with
  | LLMCallResult.failure e => Except.error ⟨"Error", genFailMessage e.message, none⟩
  | LLMCallResult.success txt =>
    match parseAdviceResponse txt with
    | Except.ok a =>
        Except.ok ⟨a, ⟨d.crop, d.disease, d.severity, d.confidence, now, modelName⟩⟩
    | Except.error m => Except.error ⟨"Error", genFailMessage m, none⟩

/-- `generateBatchAdvice(diseaseDataArray)`: `Promise.all` over the per-item
calls, with the surfaced rejection chosen deterministically in input order. -/
def generateBatchAdvice (oracle : String → LLMCallResult) (items : List DetectionInput)
    (now : String) : Except JSError (List AdviceResult) :=
  match items with
  | [] => Except.ok []
  | d :: rest =>
    match generateCropAdvice oracle d now with
    | Except.error e => Except.error e
    | Except.ok r =>
      match generateBatchAdvice oracle rest now with
      | Except.error e => Except.error e
      | Except.ok rs => Except.ok (r :: rs)

/-- One parsed field is either the trimmed regex capture or the field's
fixed fallback string. -/
def fieldOutcome (label : List Char) (alts : List (List Char)) (fb : String)
    (t : List Char) (v : String) : Prop :=
  (∃ m, extractField label alts t = some m ∧ v = String.mk (trimL m)) ∨
  (extractField label alts t = none ∧ v = fb)

/-- A labelled section of a well-formed reply: the label, one space, the
section's content. -/
def segL (label : List Char) (c : List Char) : List Char := label ++ ' ' :: c

/-- A reply text with all six labelled sections in order, blank-line
separated: `CAUSE: c1\n\nSYMPTOMS: c2\n\n...\n\nPREVENTION: c6`. -/
def mkReply (s1 s2 s3 s4 s5 s6 : String) : String :=
  "CAUSE: " ++ s1 ++ "\n\nSYMPTOMS: " ++ s2 ++ "\n\nIMMEDIATE: " ++ s3 ++
    "\n\nCHEMICAL: " ++ s4 ++ "\n\nORGANIC: " ++ s5 ++ "\n\nPREVENTION: " ++ s6

/-- The suffix of a well-formed reply from its PREVENTION section on. -/
def restPrev (d6 : List Char) : List Char := segL preventionL d6

/-- The suffix of a well-formed reply from its ORGANIC section on. -/
def restOrg (d5 d6 : List Char) : List Char := segL organicL d5 ++ (nnL ++ restPrev d6)

/-- The suffix of a well-formed reply from its CHEMICAL section on. -/
def restChem (d4 d5 d6 : List Char) : List Char :=
  segL chemicalL d4 ++ (nnL ++ restOrg d5 d6)

/-- The suffix of a well-formed reply from its IMMEDIATE section on. -/
def restImm (d3 d4 d5 d6 : List Char) : List Char :=
  segL immediateL d3 ++ (nnL ++ restChem d4 d5 d6)

/-- The suffix of a well-formed reply from its SYMPTOMS section on. -/
def restSym (d2 d3 d4 d5 d6 : List Char) : List Char :=
  segL symptomsL d2 ++ (nnL ++ restImm d3 d4 d5 d6)

/-- The character-list form of `mkReply`. -/
def mkReplyL (d1 d2 d3 d4 d5 d6 : List Char) : List Char :=
  segL causeL d1 ++ (nnL ++ restSym d2 d3 d4 d5 d6)

/-- Non-empty with a non-whitespace first character. -/
def headNotWs : List Char → Bool
  | [] => false
  | x :: _ => !jsWs x

/-- A section content is well formed when it is non-empty, starts and ends
with non-whitespace, and contains no newline. -/
def contentOk (c : List Char) : Bool :=
  headNotWs c && headNotWs c.reverse && c.all (fun ch => !(lc ch == '\n'))

/-- Well-formedness of the six contents of `mkReply`: each content is
`contentOk` (non-empty, newline-free, non-whitespace at both ends), and no
label occurs (case-insensitively) inside any earlier section — so that each
label's leftmost occurrence in the reply is its own section header. -/
def c4ok (s1 s2 s3 s4 s5 s6 : String) : Prop :=
  contentOk s1.data = true ∧ contentOk s2.data = true ∧ contentOk s3.data = true ∧
  contentOk s4.data = true ∧ contentOk s5.data = true ∧ contentOk s6.data = true ∧
  hasCI symptomsL (segL causeL s1.data) = false ∧
  hasCI immediateL (segL causeL s1.data) = false ∧
  hasCI immediateL (segL symptomsL s2.data) = false ∧
  hasCI chemicalL (segL causeL s1.data) = false ∧
  hasCI chemicalL (segL symptomsL s2.data) = false ∧
  hasCI chemicalL (segL immediateL s3.data) = false ∧
  hasCI organicL (segL causeL s1.data) = false ∧
  hasCI organicL (segL symptomsL s2.data) = false ∧
  hasCI organicL (segL immediateL s3.data) = false ∧
  hasCI organicL (segL chemicalL s4.data) = false ∧
  hasCI preventionL (segL causeL s1.data) = false ∧
  hasCI preventionL (segL symptomsL s2.data) = false ∧
  hasCI preventionL (segL immediateL s3.data) = false ∧
  hasCI preventionL (segL chemicalL s4.data) = false ∧
  hasCI preventionL (segL organicL s5.data) = false

/-- Sample detection record used by concrete scenarios. -/
def tomatoInput : DetectionInput := ⟨"Tomato", "Early Blight", "medium", 93 / 100⟩

/-- Second sample detection record used by concrete scenarios. -/
def potatoInput : DetectionInput := ⟨"Potato", "Late Blight", "high", 87 / 100⟩

/-- A reply text carrying all six labelled sections. -/
def goodReply : String :=
  "CAUSE: fungal spores\n\nSYMPTOMS: brown spots\n\nIMMEDIATE: remove leaves\n\nCHEMICAL: mancozeb 2g per litre\n\nORGANIC: neem oil\n\nPREVENTION: rotate crops"

/-- A fixed timestamp standing for `new Date().toISOString()`. -/
def ts0 : String := "2025-01-01T00:00:00.000Z"

/-- An oracle whose external call always succeeds with `goodReply`. -/
def okOracle : String → LLMCallResult := fun _ => LLMCallResult.success (some goodReply)

/-- An oracle that fails (HTTP 429) exactly when the crop named at the start
of the prompt begins with an upper-case P (true of `potatoInput`, not of
`tomatoInput`); it inspects only the prompt's first 60 characters and answers
other prompts with `goodReply`. -/
def potatoFailsOracle : String → LLMCallResult := fun p =>
  if (p.data.take 60).any (fun c => c == 'P') then LLMCallResult.failure ⟨"boom", some 429⟩
  else LLMCallResult.success (some goodReply)

/-! ## Helper lemmas -/

theorem ratFloor_eq_intFloor (q : ℚ) : q.floor = ⌊q⌋ := by
  rw [Rat.floor_def', Rat.floor_def]

theorem findLabel_eq_none {L t : List Char} (h : hasCI L t = false) :
    findLabel L t = none := by
  induction t with
  | nil => rfl
  | cons c rest ih =>
    simp only [hasCI, Bool.or_eq_false_iff] at h
    simp only [findLabel, h.1, if_false, Bool.false_eq_true]
    exact ih h.2

theorem extractOrFallback_of_hasCI_false {L : List Char} (alts : List (List Char))
    (fb : String) {t : List Char} (h : hasCI L t = false) :
    extractOrFallback L alts fb t = fb := by
  simp only [extractOrFallback, extractField, findLabel_eq_none h]

theorem fieldOutcome_extractOrFallback (label : List Char) (alts : List (List Char))
    (fb : String) (t : List Char) :
    fieldOutcome label alts fb t (extractOrFallback label alts fb t) := by
  unfold fieldOutcome extractOrFallback
  cases h : extractField label alts t with
  | none => exact Or.inr ⟨rfl, rfl⟩
  | some m => exact Or.inl ⟨m, rfl, rfl⟩

theorem lc_beq_nl_false {l : Char} (h : lc l ≠ '\n') : (lc l == lc '\n') = false := by
  have hnl : lc '\n' = '\n' := rfl
  rw [hnl]
  exact beq_eq_false_iff_ne.mpr h

/-- A case-insensitive match of a newline-free pattern cannot extend past a
newline: everything from the first `'\n'` on is irrelevant to it. -/
theorem ciStarts_append_nl {L : List Char} (hL : ∀ c ∈ L, lc c ≠ '\n')
    (A B : List Char) : ciStarts L (A ++ '\n' :: B) = ciStarts L A := by
  induction L generalizing A with
  | nil => rfl
  | cons l ls ih =>
    cases A with
    | nil =>
      simp only [List.nil_append, ciStarts]
      rw [lc_beq_nl_false (hL l (List.mem_cons_self _ _))]
      rfl
    | cons a as =>
      show ((lc l == lc a) && ciStarts ls (as ++ '\n' :: B)) =
        ((lc l == lc a) && ciStarts ls as)
      rw [ih (fun c hc => hL c (List.mem_cons_of_mem _ hc)) as]

theorem hasCI_nil_of_ne {L : List Char} (h : L ≠ []) : hasCI L [] = false := by
  cases L with
  | nil => exact absurd rfl h
  | cons a as => rfl

theorem hasCI_cons_nl {L : List Char} (hne : L ≠ []) (hL : ∀ c ∈ L, lc c ≠ '\n')
    (X : List Char) : hasCI L ('\n' :: X) = hasCI L X := by
  cases L with
  | nil => exact absurd rfl hne
  | cons l ls =>
    simp only [hasCI, ciStarts]
    rw [lc_beq_nl_false (hL l (List.mem_cons_self _ _))]
    rfl

theorem hasCI_append_nl {L : List Char} (hne : L ≠ []) (hL : ∀ c ∈ L, lc c ≠ '\n')
    (A B : List Char) : hasCI L (A ++ '\n' :: B) = (hasCI L A || hasCI L B) := by
  induction A with
  | nil =>
    rw [List.nil_append, hasCI_cons_nl hne hL, hasCI_nil_of_ne hne, Bool.false_or]
  | cons a as ih =>
    show (ciStarts L ((a :: as) ++ '\n' :: B) || hasCI L (as ++ '\n' :: B)) =
      ((ciStarts L (a :: as) || hasCI L as) || hasCI L B)
    rw [ciStarts_append_nl hL (a :: as) B, ih, Bool.or_assoc]

theorem hasCI_append_left_false {L A B : List Char} (h : hasCI L (A ++ B) = false) :
    hasCI L B = false := by
  induction A with
  | nil => exact h
  | cons a as ih =>
    simp only [List.cons_append, hasCI, Bool.or_eq_false_iff] at h
    exact ih h.2

theorem hasCI_false_drop {L P : List Char} (h : hasCI L P = false) (i : ℕ) :
    ciStarts L (P.drop i) = false := by
  induction P generalizing i with
  | nil =>
    simp only [hasCI] at h
    simpa [List.drop_nil] using h
  | cons c rest ih =>
    simp only [hasCI, Bool.or_eq_false_iff] at h
    cases i with
    | zero => exact h.1
    | succ n => exact ih h.2 n

theorem findLabel_skip {L P R : List Char}
    (h : ∀ i, i < P.length → ciStarts L ((P ++ R).drop i) = false) :
    findLabel L (P ++ R) = findLabel L R := by
  induction P with
  | nil => rfl
  | cons p ps ih =>
    have h0 := h 0 (Nat.succ_pos _)
    rw [List.drop_zero] at h0
    show (if ciStarts L ((p :: ps) ++ R) = true
        then some (((p :: ps) ++ R).drop L.length)
        else findLabel L (ps ++ R)) = findLabel L R
    rw [h0]
    simp only [Bool.false_eq_true, if_false]
    exact ih fun i hi => by
      have := h (i + 1) (Nat.succ_lt_succ hi)
      simpa [List.cons_append, List.drop_succ_cons] using this

theorem findLabel_skip_nl {L Q R : List Char} (hne : L ≠ [])
    (hL : ∀ c ∈ L, lc c ≠ '\n') (hno : hasCI L (Q ++ ['\n']) = false) :
    findLabel L ((Q ++ ['\n']) ++ R) = findLabel L R := by
  have hQ : hasCI L Q = false := by
    have hsplit := hasCI_append_nl hne hL Q []
    rw [show Q ++ '\n' :: ([] : List Char) = Q ++ ['\n'] from rfl] at hsplit
    rw [hno] at hsplit
    exact (Bool.or_eq_false_iff.mp hsplit.symm).1
  apply findLabel_skip
  intro i hi
  have hi' : i ≤ Q.length := by
    simp only [List.length_append, List.length_cons, List.length_nil] at hi
    omega
  rw [List.append_assoc, List.singleton_append, List.drop_append_of_le_length hi',
    ciStarts_append_nl hL]
  exact hasCI_false_drop hQ i

theorem ciStarts_self_append (L R : List Char) : ciStarts L (L ++ R) = true := by
  induction L with
  | nil => rfl
  | cons a as ih => simp [ciStarts, ih]

theorem findLabel_self {L R : List Char} (hne : L ≠ []) :
    findLabel L (L ++ R) = some R := by
  cases L with
  | nil => exact absurd rfl hne
  | cons a as =>
    show (if ciStarts (a :: as) ((a :: as) ++ R) = true
        then some (((a :: as) ++ R).drop (a :: as).length)
        else findLabel (a :: as) (as ++ R)) = some R
    rw [ciStarts_self_append]
    simp only [if_true]
    rw [List.drop_left]

/-- The lazy capture consumes exactly `c` when the lookahead fails at every
proper split of `c` and holds right after it. -/
theorem lazyCapture_exact {alts : List (List Char)} {c S : List Char} (hc : c ≠ [])
    (hmid : ∀ n, 0 < n → n < c.length → boundary alts (c.drop n ++ S) = false)
    (hend : boundary alts S = true) :
    lazyCapture alts (c ++ S) = some c := by
  induction c with
  | nil => exact absurd rfl hc
  | cons x xs ih =>
    cases xs with
    | nil =>
      show (if boundary alts S = true then some [x]
        else match lazyCapture alts S with
          | some cs => some (x :: cs)
          | none => none) = some [x]
      rw [hend]
      simp only [if_true]
    | cons y ys =>
      have h1 : boundary alts ((y :: ys) ++ S) = false := by
        have := hmid 1 (Nat.one_pos) (by simp)
        simpa [List.drop_succ_cons, List.drop_zero] using this
      show (if boundary alts ((y :: ys) ++ S) = true then some [x]
        else match lazyCapture alts ((y :: ys) ++ S) with
          | some cs => some (x :: cs)
          | none => none) = some (x :: y :: ys)
      rw [h1]
      simp only [Bool.false_eq_true, if_false]
      rw [ih (by simp) (fun n hn hn2 => by
        have := hmid (n + 1) (Nat.succ_pos _) (Nat.succ_lt_succ hn2)
        simpa [List.drop_succ_cons] using this)]

/-- In the middle of a newline-free content no lookahead alternative holds:
a `'\n'`-headed alternative mismatches the content's next character, and a
label alternative has no occurrence inside the content and cannot extend
past the following newline (or end). -/
theorem boundary_false_mid {alts : List (List Char)} {ck S : List Char}
    (hcnl : ∀ c ∈ ck, lc c ≠ '\n')
    (halts : ∀ A ∈ alts, (∃ T, A = '\n' :: T) ∨
      ((∀ c ∈ A, lc c ≠ '\n') ∧ hasCI A ck = false))
    (hS : S = [] ∨ ∃ T, S = '\n' :: T) :
    ∀ n, 0 < n → n < ck.length → boundary alts (ck.drop n ++ S) = false := by
  intro n h0 hn
  obtain ⟨v0, v', hv⟩ : ∃ v0 v', ck.drop n = v0 :: v' := by
    cases hveq : ck.drop n with
    | nil =>
      rw [List.drop_eq_nil_iff] at hveq
      omega
    | cons a b => exact ⟨a, b, rfl⟩
  have hv0 : lc v0 ≠ '\n' :=
    hcnl v0 (List.mem_of_mem_drop (by rw [hv]; exact List.mem_cons_self _ _))
  rw [hv]
  show alts.any (fun a => ciStarts a ((v0 :: v') ++ S)) = false
  rw [List.any_eq_false]
  intro A hA
  rcases halts A hA with ⟨T, rfl⟩ | ⟨hAnl, hAck⟩
  · show ¬(((lc '\n' == lc v0) && ciStarts T (v' ++ S)) = true)
    have hbeq : (lc '\n' == lc v0) = false :=
      beq_eq_false_iff_ne.mpr (by
        intro hcon
        exact hv0 (by rw [← hcon]; rfl))
    simp [hbeq]
  · have hfalse : ciStarts A (ck.drop n) = false := hasCI_false_drop hAck n
    rcases hS with rfl | ⟨T, rfl⟩
    · show ¬(ciStarts A ((v0 :: v') ++ []) = true)
      rw [List.append_nil, ← hv, hfalse]
      simp
    · show ¬(ciStarts A ((v0 :: v') ++ '\n' :: T) = true)
      rw [ciStarts_append_nl hAnl, ← hv, hfalse]
      simp

theorem matchAfterLabel_spaced {alts : List (List Char)} {ck S : List Char}
    (hhead : ∃ x xs, ck = x :: xs ∧ jsWs x = false)
    (hcap : lazyCapture alts (ck ++ S) = some ck) :
    matchAfterLabel alts (' ' :: (ck ++ S)) = some ck := by
  obtain ⟨x, xs, rfl, hx⟩ := hhead
  have hdrop : (' ' :: ((x :: xs) ++ S)).dropWhile jsWs = (x :: xs) ++ S := by
    rw [List.dropWhile_cons_of_pos (by rfl)]
    exact List.dropWhile_cons_of_neg (by simp [hx])
  unfold matchAfterLabel
  rw [hdrop]
  exact hcap

theorem trimL_eq_self {c : List Char}
    (hhead : ∃ x xs, c = x :: xs ∧ jsWs x = false)
    (hlast : ∃ y ys, c.reverse = y :: ys ∧ jsWs y = false) :
    trimL c = c := by
  obtain ⟨x, xs, hx, hxw⟩ := hhead
  obtain ⟨y, ys, hy, hyw⟩ := hlast
  unfold trimL
  rw [hx, List.dropWhile_cons_of_neg (by simp [hxw]), ← hx, hy,
    List.dropWhile_cons_of_neg (by simp [hyw]), ← hy, List.reverse_reverse]

theorem headNotWs_shape {c : List Char} (h : headNotWs c = true) :
    ∃ x xs, c = x :: xs ∧ jsWs x = false := by
  cases c with
  | nil => exact absurd h (by simp [headNotWs])
  | cons x xs =>
    refine ⟨x, xs, rfl, ?_⟩
    simpa [headNotWs] using h

theorem contentOk_shape {c : List Char} (h : contentOk c = true) :
    (∃ x xs, c = x :: xs ∧ jsWs x = false) ∧
    (∃ y ys, c.reverse = y :: ys ∧ jsWs y = false) ∧
    (∀ ch ∈ c, lc ch ≠ '\n') ∧ c ≠ [] := by
  simp only [contentOk, Bool.and_eq_true] at h
  obtain ⟨⟨h1, h2⟩, h3⟩ := h
  obtain ⟨x, xs, hx, hxw⟩ := headNotWs_shape h1
  refine ⟨⟨x, xs, hx, hxw⟩, headNotWs_shape h2, ?_, by rw [hx]; exact List.cons_ne_nil x xs⟩
  intro ch hch
  have := (List.all_eq_true.mp h3) ch hch
  simpa [beq_eq_false_iff_ne] using this

theorem hasCI_content_of_seg {L lab c : List Char} (h : hasCI L (segL lab c) = false) :
    hasCI L c = false := by
  unfold segL at h
  have h2 := hasCI_append_left_false h
  have h3 : hasCI L ([' '] ++ c) = false := h2
  exact hasCI_append_left_false h3

theorem findLabel_cons_nl {L : List Char} (hne : L ≠ [])
    (hL : ∀ c ∈ L, lc c ≠ '\n') (rest : List Char) :
    findLabel L ('\n' :: rest) = findLabel L rest := by
  cases L with
  | nil => exact absurd rfl hne
  | cons l ls =>
    show (if ciStarts (l :: ls) ('\n' :: rest) = true
        then some (('\n' :: rest).drop (l :: ls).length)
        else findLabel (l :: ls) rest) = findLabel (l :: ls) rest
    have hc : ciStarts (l :: ls) ('\n' :: rest) = false := by
      show ((lc l == lc '\n') && ciStarts ls rest) = false
      rw [lc_beq_nl_false (hL l (List.mem_cons_self _ _))]
      rfl
    rw [hc]
    simp only [Bool.false_eq_true, if_false]

/-- Skipping one well-separated labelled segment that does not contain the
sought label. -/
theorem findLabel_seg_skip {L : List Char} (hne : L ≠ [])
    (hL : ∀ c ∈ L, lc c ≠ '\n') {A rest : List Char} (hA : hasCI L A = false) :
    findLabel L (A ++ (nnL ++ rest)) = findLabel L rest := by
  have hshape : A ++ (nnL ++ rest) = (A ++ ['\n']) ++ ('\n' :: rest) := by
    simp [nnL]
  have hno : hasCI L (A ++ ['\n']) = false := by
    have := hasCI_append_nl hne hL A []
    rw [show A ++ '\n' :: ([] : List Char) = A ++ ['\n'] from rfl] at this
    rw [this, hA, hasCI_nil_of_ne hne]
    rfl
  rw [hshape, findLabel_skip_nl hne hL hno, findLabel_cons_nl hne hL]

/-- The label at the head of its own segment is found, yielding the suffix
after it. -/
theorem findLabel_at_seg {L : List Char} (hne : L ≠ []) (ck rest : List Char) :
    findLabel L (segL L ck ++ rest) = some (' ' :: (ck ++ rest)) := by
  have : segL L ck ++ rest = L ++ (' ' :: (ck ++ rest)) := by
    simp [segL]
  rw [this, findLabel_self hne]

theorem boundary_at_nn {alts : List (List Char)} (X : List Char) (h : nnL ∈ alts) :
    boundary alts (nnL ++ X) = true := by
  unfold boundary
  refine Bool.or_eq_true_iff.mpr (Or.inr ?_)
  rw [List.any_eq_true]
  exact ⟨nnL, h, by simp [nnL, ciStarts]⟩

theorem stringMk_data (s : String) : String.mk s.data = s := rfl

/-- Full success of one field's extraction on a well-formed reply. -/
theorem extractOrFallback_eq_content (L : List Char) (alts : List (List Char))
    (fb : String) (text ck S : List Char)
    (hfind : findLabel L text = some (' ' :: (ck ++ S)))
    (hhead : ∃ x xs, ck = x :: xs ∧ jsWs x = false)
    (hlast : ∃ y ys, ck.reverse = y :: ys ∧ jsWs y = false)
    (hcap : lazyCapture alts (ck ++ S) = some ck) :
    extractOrFallback L alts fb text = String.mk ck := by
  unfold extractOrFallback extractField
  rw [hfind]
  show (match matchAfterLabel alts (' ' :: (ck ++ S)) with
    | some m => String.mk (trimL m)
    | none => fb) = String.mk ck
  rw [matchAfterLabel_spaced hhead hcap]
  show String.mk (trimL ck) = String.mk ck
  rw [trimL_eq_self hhead hlast]

theorem mkReply_data (s1 s2 s3 s4 s5 s6 : String) :
    (mkReply s1 s2 s3 s4 s5 s6).data =
      mkReplyL s1.data s2.data s3.data s4.data s5.data s6.data := by
  have eC : "CAUSE: ".data = causeL ++ [' '] := rfl
  have eS : "\n\nSYMPTOMS: ".data = nnL ++ (symptomsL ++ [' ']) := rfl
  have eI : "\n\nIMMEDIATE: ".data = nnL ++ (immediateL ++ [' ']) := rfl
  have eCh : "\n\nCHEMICAL: ".data = nnL ++ (chemicalL ++ [' ']) := rfl
  have eO : "\n\nORGANIC: ".data = nnL ++ (organicL ++ [' ']) := rfl
  have eP : "\n\nPREVENTION: ".data = nnL ++ (preventionL ++ [' ']) := rfl
  simp only [mkReply, String.data_append, eC, eS, eI, eCh, eO, eP, mkReplyL,
    restSym, restImm, restChem, restOrg, restPrev, segL,
    causeL, symptomsL, immediateL, chemicalL, organicL, preventionL, nnL,
    List.append_assoc, List.singleton_append, List.cons_append, List.nil_append]

/-! ## Claims -/

/-- C10: for every string input (empty, garbage, label-free, anything),
`parseAdviceResponse` returns normally (models: no exception) with an
`Advice` record, whose type carries exactly the six string fields. -/
theorem C10_parse_total_on_strings (t : String) :
    ∃ a : Advice, parseAdviceResponse (some t) = Except.ok a :=
  ⟨parseFields t.data, rfl⟩

/-- C5: parsing fails (throws) exactly when the input is not a string
(`null`/`undefined`, modelled by `none`); a label simply not matching never
produces an error. -/
theorem C5_parse_error_iff (o : Option String) :
    (∃ m, parseAdviceResponse o = Except.error m) ↔ o = none := by
  cases o with
  | none => exact ⟨fun _ => rfl, fun _ => ⟨"Failed to parse AI response", rfl⟩⟩
  | some t =>
    constructor
    · rintro ⟨m, hm⟩
      exact absurd hm (by simp [parseAdviceResponse])
    · intro h
      exact absurd h (by simp)

/-- C7: whenever a label does not occur (case-insensitively) in the reply
text, the corresponding field of the parse result is exactly that field's
fixed fallback string; in particular a reply with no `CHEMICAL:` section
yields chemical = "Consult local agriculture office". -/
theorem C7_absent_label_gives_fallback (t : String) :
    (hasCI causeL t.data = false → (parseFields t.data).cause = causeFallback) ∧
    (hasCI symptomsL t.data = false → (parseFields t.data).symptoms = symptomsFallback) ∧
    (hasCI immediateL t.data = false → (parseFields t.data).immediate = immediateFallback) ∧
    (hasCI chemicalL t.data = false →
      (parseFields t.data).chemical = "Consult local agriculture office") ∧
    (hasCI organicL t.data = false → (parseFields t.data).organic = organicFallback) ∧
    (hasCI preventionL t.data = false → (parseFields t.data).prevention = preventionFallback) :=
  ⟨fun h => extractOrFallback_of_hasCI_false _ _ h,
   fun h => extractOrFallback_of_hasCI_false _ _ h,
   fun h => extractOrFallback_of_hasCI_false _ _ h,
   fun h => extractOrFallback_of_hasCI_false _ _ h,
   fun h => extractOrFallback_of_hasCI_false _ _ h,
   fun h => extractOrFallback_of_hasCI_false _ _ h⟩

/-- Witness for C7 at the concrete label-free reply "hello world". -/
theorem C7_absent_label_gives_fallback_witness :
    (parseFields "hello world".data).cause = causeFallback ∧
    (parseFields "hello world".data).chemical = "Consult local agriculture office" :=
  ⟨(C7_absent_label_gives_fallback "hello world").1 (by decide),
   (C7_absent_label_gives_fallback "hello world").2.2.2.1 (by decide)⟩

/-- C8: the confidence is rendered in the prompt as `toFixed(0)` of
`confidence × 100` followed by "%": 0.93 renders as "93%", 0.0 as "0%",
and the rendered fragment appears verbatim inside the built prompt. -/
theorem C8_confidence_rendering :
    confidenceText (93 / 100) = "93%" ∧ confidenceText 0 = "0%" ∧
    ∀ d : DetectionInput, ∃ p s : String,
      buildPrompt d = p ++ confidenceText d.confidence ++ s := by
  have h93 : toFixed0 (93 / 100 * 100) = 93 := by
    simp only [toFixed0, ratFloor_eq_intFloor]
    norm_num
  have h0 : toFixed0 (0 * 100) = 0 := by
    simp only [toFixed0, ratFloor_eq_intFloor]
    norm_num
  refine ⟨?_, ?_, fun d => ?_⟩
  · show toString (toFixed0 (93 / 100 * 100)) ++ "%" = "93%"
    rw [h93]
    decide
  · show toString (toFixed0 (0 * 100)) ++ "%" = "0%"
    rw [h0]
    decide
  refine ⟨"You are an expert agricultural advisor. A farmer has a " ++ d.crop ++
    " plant infected with " ++ d.disease ++ ". The severity is " ++ d.severity ++
    " and detection confidence is ", promptTail, ?_⟩
  simp only [buildPrompt, String.append_assoc]

/-- C9: on a successful call the result carries the parsed fields plus a
metadata block holding the input's crop, disease, severity and confidence
unchanged, the timestamp, and the fixed model identifier. -/
theorem C9_metadata_passthrough (oracle : String → LLMCallResult) (d : DetectionInput)
    (now t : String) (h : oracle (buildPrompt d) = LLMCallResult.success (some t)) :
    generateCropAdvice oracle d now =
      Except.ok ⟨parseFields t.data,
        ⟨d.crop, d.disease, d.severity, d.confidence, now, modelName⟩⟩ := by
  unfold generateCropAdvice
  rw [h]
  rfl

/-- Witness for C9: the Tomato/0.93 scenario with `goodReply`. -/
theorem C9_metadata_passthrough_witness :
    okOracle (buildPrompt tomatoInput) = LLMCallResult.success (some goodReply) ∧
    generateCropAdvice okOracle tomatoInput ts0 =
      Except.ok ⟨parseFields goodReply.data,
        ⟨"Tomato", "Early Blight", "medium", 93 / 100, ts0, modelName⟩⟩ :=
  ⟨rfl, C9_metadata_passthrough okOracle tomatoInput ts0 goodReply rfl⟩

/-- C1 fails as stated: on the reply "CAUSE: " the label is present, the
regex backtracks one whitespace character into the mandatory group, and
`trim` empties it — the returned cause field is the empty string (which is
also not the cause fallback), so the six fields are not always non-empty. -/
theorem C1_counterexample :
    (generateCropAdvice (fun _ => LLMCallResult.success (some "CAUSE: "))
        tomatoInput ts0 =
      Except.ok ⟨⟨"", symptomsFallback, immediateFallback, chemicalFallback,
          organicFallback, preventionFallback⟩,
        ⟨"Tomato", "Early Blight", "medium", 93 / 100, ts0, modelName⟩⟩) ∧
    ("" : String) ≠ causeFallback :=
  ⟨rfl, by decide⟩

/-- C1 amended: on every successful generation each of the six fields is a
defined string that is either the trimmed regex capture or that field's
fixed fallback — but the trimmed capture may itself be empty, so the fields
are not guaranteed non-empty. -/
theorem C1_amended_fields_defined (oracle : String → LLMCallResult)
    (d : DetectionInput) (now t : String)
    (h : oracle (buildPrompt d) = LLMCallResult.success (some t)) :
    ∃ r, generateCropAdvice oracle d now = Except.ok r ∧
      fieldOutcome causeL [nnL, symptomsL] causeFallback t.data r.advice.cause ∧
      fieldOutcome symptomsL [nnL, immediateL] symptomsFallback t.data r.advice.symptoms ∧
      fieldOutcome immediateL [nnL, chemicalL] immediateFallback t.data r.advice.immediate ∧
      fieldOutcome chemicalL [nnL, organicL] chemicalFallback t.data r.advice.chemical ∧
      fieldOutcome organicL [nnL, preventionL] organicFallback t.data r.advice.organic ∧
      fieldOutcome preventionL [nnL] preventionFallback t.data r.advice.prevention := by
  refine ⟨⟨parseFields t.data, ⟨d.crop, d.disease, d.severity, d.confidence, now, modelName⟩⟩,
    ?_, ?_, ?_, ?_, ?_, ?_, ?_⟩
  · unfold generateCropAdvice
    rw [h]
    rfl
  all_goals exact fieldOutcome_extractOrFallback _ _ _ _

/-- Witness for the amended C1 at the concrete Tomato scenario. -/
theorem C1_amended_fields_defined_witness :
    ∃ r, generateCropAdvice okOracle tomatoInput ts0 = Except.ok r ∧
      fieldOutcome causeL [nnL, symptomsL] causeFallback goodReply.data r.advice.cause ∧
      fieldOutcome symptomsL [nnL, immediateL] symptomsFallback goodReply.data r.advice.symptoms ∧
      fieldOutcome immediateL [nnL, chemicalL] immediateFallback goodReply.data r.advice.immediate ∧
      fieldOutcome chemicalL [nnL, organicL] chemicalFallback goodReply.data r.advice.chemical ∧
      fieldOutcome organicL [nnL, preventionL] organicFallback goodReply.data r.advice.organic ∧
      fieldOutcome preventionL [nnL] preventionFallback goodReply.data r.advice.prevention :=
  C1_amended_fields_defined okOracle tomatoInput ts0 goodReply rfl

/-- C2 fails as stated: an upstream failure that exposes status 429 is
rethrown as a plain `Error` that carries no status, and a parse failure is
rethrown as the same plain `Error` kind — there is no `UpstreamGenerationError`
or `AdviceParseError` distinguishable by the caller. -/
theorem C2_counterexample :
    (generateCropAdvice (fun _ => LLMCallResult.failure ⟨"quota exceeded", some 429⟩)
        tomatoInput ts0 =
      Except.error ⟨"Error", genFailMessage "quota exceeded", none⟩) ∧
    (generateCropAdvice (fun _ => LLMCallResult.success none) tomatoInput ts0 =
      Except.error ⟨"Error", genFailMessage "Failed to parse AI response", none⟩) ∧
    ("Error" : String) ≠ "UpstreamGenerationError" ∧
    ("Error" : String) ≠ "AdviceParseError" :=
  ⟨rfl, rfl, by decide, by decide⟩

/-- C2 amended: every failure — upstream (any cause) or parse — makes the
operation fail with one plain `Error` whose message is the fixed prefix plus
the cause's message; the status code is never attached, and the two failure
kinds differ only in that embedded message text. -/
theorem C2_amended_single_error_kind :
    (∀ (oracle : String → LLMCallResult) (d : DetectionInput) (now : String)
        (e : UpstreamError), oracle (buildPrompt d) = LLMCallResult.failure e →
      generateCropAdvice oracle d now =
        Except.error ⟨"Error", genFailMessage e.message, none⟩) ∧
    (∀ (oracle : String → LLMCallResult) (d : DetectionInput) (now : String),
        oracle (buildPrompt d) = LLMCallResult.success none →
      generateCropAdvice oracle d now =
        Except.error ⟨"Error", genFailMessage "Failed to parse AI response", none⟩) := by
  constructor
  · intro oracle d now e h
    unfold generateCropAdvice
    rw [h]
  · intro oracle d now h
    unfold generateCropAdvice
    rw [h]
    rfl

/-- Witness for the amended C2 on concrete failing calls. -/
theorem C2_amended_single_error_kind_witness :
    generateCropAdvice (fun _ => LLMCallResult.failure ⟨"ECONNRESET", none⟩)
        tomatoInput ts0 =
      Except.error ⟨"Error", genFailMessage "ECONNRESET", none⟩ ∧
    generateCropAdvice (fun _ => LLMCallResult.success none) tomatoInput ts0 =
      Except.error ⟨"Error", genFailMessage "Failed to parse AI response", none⟩ :=
  ⟨C2_amended_single_error_kind.1 (fun _ => LLMCallResult.failure ⟨"ECONNRESET", none⟩)
      tomatoInput ts0 ⟨"ECONNRESET", none⟩ rfl,
   C2_amended_single_error_kind.2 (fun _ => LLMCallResult.success none) tomatoInput ts0 rfl⟩

/-- C3 fails as stated: in a two-item batch whose second item's call fails,
the batch rejects with exactly the failing item's own plain `Error` —
identical to the single-advice error, not wrapped in any
`BatchAggregateError` — and no partial list is returned. -/
theorem C3_counterexample :
    (generateBatchAdvice potatoFailsOracle [tomatoInput, potatoInput] ts0 =
      Except.error ⟨"Error", genFailMessage "boom", none⟩) ∧
    (generateCropAdvice potatoFailsOracle potatoInput ts0 =
      Except.error ⟨"Error", genFailMessage "boom", none⟩) ∧
    ("Error" : String) ≠ "BatchAggregateError" :=
  ⟨rfl, rfl, by decide⟩

/-- C3 amended: if every item before position k succeeds and item k's
generation fails with error e, the whole batch fails with exactly e (the
failing item's own unwrapped error) and no partial results are returned. -/
theorem C3_amended_batch_fails_with_first_error (oracle : String → LLMCallResult)
    (now : String) (pre post : List DetectionInput) (d : DetectionInput) (e : JSError)
    (hpre : ∀ x ∈ pre, ∃ r, generateCropAdvice oracle x now = Except.ok r)
    (hd : generateCropAdvice oracle d now = Except.error e) :
    generateBatchAdvice oracle (pre ++ d :: post) now = Except.error e := by
  induction pre with
  | nil =>
    rw [List.nil_append]
    unfold generateBatchAdvice
    rw [hd]
  | cons x xs ih =>
    obtain ⟨r, hr⟩ := hpre x (List.mem_cons_self x xs)
    rw [List.cons_append]
    unfold generateBatchAdvice
    rw [hr, ih (fun y hy => hpre y (List.mem_cons_of_mem x hy))]

/-- Witness for the amended C3: Tomato succeeds, Potato fails. -/
theorem C3_amended_batch_fails_with_first_error_witness :
    generateBatchAdvice potatoFailsOracle ([tomatoInput] ++ potatoInput :: []) ts0 =
      Except.error ⟨"Error", genFailMessage "boom", none⟩ :=
  C3_amended_batch_fails_with_first_error potatoFailsOracle ts0 [tomatoInput] []
    potatoInput ⟨"Error", genFailMessage "boom", none⟩
    (fun x hx => by
      rw [List.mem_singleton] at hx
      subst hx
      exact ⟨⟨parseFields goodReply.data,
        ⟨"Tomato", "Early Blight", "medium", 93 / 100, ts0, modelName⟩⟩, rfl⟩)
    rfl

/-- C6: when every per-item generation succeeds (item i yielding the i-th
element of rs), the batch returns exactly those results in input order. -/
theorem C6_batch_preserves_order (oracle : String → LLMCallResult) (now : String)
    (items : List DetectionInput) (rs : List AdviceResult)
    (hlen : items.length = rs.length)
    (h : ∀ i (h1 : i < items.length) (h2 : i < rs.length),
      generateCropAdvice oracle (items.get ⟨i, h1⟩) now = Except.ok (rs.get ⟨i, h2⟩)) :
    generateBatchAdvice oracle items now = Except.ok rs := by
  induction items generalizing rs with
  | nil =>
    cases rs with
    | nil => rfl
    | cons r rs => exact absurd hlen (by simp)
  | cons d rest ih =>
    cases rs with
    | nil => exact absurd hlen (by simp)
    | cons r rs =>
      have h0 : generateCropAdvice oracle d now = Except.ok r :=
        h 0 (Nat.succ_pos _) (Nat.succ_pos _)
      have hrest : generateBatchAdvice oracle rest now = Except.ok rs := by
        refine ih rs (by simpa using hlen) ?_
        intro i h1 h2
        exact h (i + 1) (Nat.succ_lt_succ h1) (Nat.succ_lt_succ h2)
      unfold generateBatchAdvice
      rw [h0, hrest]

/-- Witness for C6: a concrete two-item all-success batch. -/
theorem C6_batch_preserves_order_witness :
    generateBatchAdvice okOracle [tomatoInput, potatoInput] ts0 =
      Except.ok [⟨parseFields goodReply.data,
          ⟨"Tomato", "Early Blight", "medium", 93 / 100, ts0, modelName⟩⟩,
        ⟨parseFields goodReply.data,
          ⟨"Potato", "Late Blight", "high", 87 / 100, ts0, modelName⟩⟩] :=
  C6_batch_preserves_order okOracle ts0 [tomatoInput, potatoInput]
    [⟨parseFields goodReply.data,
        ⟨"Tomato", "Early Blight", "medium", 93 / 100, ts0, modelName⟩⟩,
      ⟨parseFields goodReply.data,
        ⟨"Potato", "Late Blight", "high", 87 / 100, ts0, modelName⟩⟩]
    rfl
    (fun i h1 h2 => by
      match i, h1, h2 with
      | 0, _, _ => rfl
      | 1, _, _ => rfl)

/-- C4: for every reply built from six well-formed section contents (all six
labels in order, each followed by its content, blank-line separated),
parsing returns for each field exactly the text between that label and the
next boundary, trimmed. -/
theorem C4_parse_extracts_sections (s1 s2 s3 s4 s5 s6 : String)
    (h : c4ok s1 s2 s3 s4 s5 s6) :
    parseAdviceResponse (some (mkReply s1 s2 s3 s4 s5 s6)) =
      Except.ok ⟨s1, s2, s3, s4, s5, s6⟩ := by
  obtain ⟨hc1, hc2, hc3, hc4, hc5, hc6, h21, h31, h32, h41, h42, h43,
    h51, h52, h53, h54, h61, h62, h63, h64, h65⟩ := h
  obtain ⟨hh1, hl1, hn1, hne1⟩ := contentOk_shape hc1
  obtain ⟨hh2, hl2, hn2, hne2⟩ := contentOk_shape hc2
  obtain ⟨hh3, hl3, hn3, hne3⟩ := contentOk_shape hc3
  obtain ⟨hh4, hl4, hn4, hne4⟩ := contentOk_shape hc4
  obtain ⟨hh5, hl5, hn5, hne5⟩ := contentOk_shape hc5
  obtain ⟨hh6, hl6, hn6, hne6⟩ := contentOk_shape hc6
  have halts1 : ∀ A ∈ [nnL, symptomsL], (∃ T, A = '\n' :: T) ∨
      ((∀ c ∈ A, lc c ≠ '\n') ∧ hasCI A s1.data = false) := by
    intro A hA
    rcases List.mem_cons.mp hA with rfl | hA2
    · exact Or.inl ⟨['\n'], rfl⟩
    · rw [List.mem_singleton] at hA2
      subst hA2
      exact Or.inr ⟨by decide, hasCI_content_of_seg h21⟩
  have hcap1 : lazyCapture [nnL, symptomsL]
      (s1.data ++ (nnL ++ restSym s2.data s3.data s4.data s5.data s6.data)) =
      some s1.data :=
    lazyCapture_exact hne1
      (boundary_false_mid hn1 halts1
        (Or.inr ⟨'\n' :: restSym s2.data s3.data s4.data s5.data s6.data, rfl⟩))
      (boundary_at_nn _ (List.mem_cons_self _ _))
  have hfind1 : findLabel causeL
      (mkReplyL s1.data s2.data s3.data s4.data s5.data s6.data) =
      some (' ' :: (s1.data ++
        (nnL ++ restSym s2.data s3.data s4.data s5.data s6.data))) := by
    unfold mkReplyL
    exact findLabel_at_seg (by decide) _ _
  have e1 : extractOrFallback causeL [nnL, symptomsL] causeFallback
      (mkReplyL s1.data s2.data s3.data s4.data s5.data s6.data) = s1 := by
    rw [extractOrFallback_eq_content causeL [nnL, symptomsL] causeFallback _
      s1.data _ hfind1 hh1 hl1 hcap1, stringMk_data]
  have halts2 : ∀ A ∈ [nnL, immediateL], (∃ T, A = '\n' :: T) ∨
      ((∀ c ∈ A, lc c ≠ '\n') ∧ hasCI A s2.data = false) := by
    intro A hA
    rcases List.mem_cons.mp hA with rfl | hA2
    · exact Or.inl ⟨['\n'], rfl⟩
    · rw [List.mem_singleton] at hA2
      subst hA2
      exact Or.inr ⟨by decide, hasCI_content_of_seg h32⟩
  have hcap2 : lazyCapture [nnL, immediateL]
      (s2.data ++ (nnL ++ restImm s3.data s4.data s5.data s6.data)) =
      some s2.data :=
    lazyCapture_exact hne2
      (boundary_false_mid hn2 halts2
        (Or.inr ⟨'\n' :: restImm s3.data s4.data s5.data s6.data, rfl⟩))
      (boundary_at_nn _ (List.mem_cons_self _ _))
  have hfind2 : findLabel symptomsL
      (mkReplyL s1.data s2.data s3.data s4.data s5.data s6.data) =
      some (' ' :: (s2.data ++
        (nnL ++ restImm s3.data s4.data s5.data s6.data))) := by
    unfold mkReplyL
    rw [findLabel_seg_skip (by decide) (by decide) h21]
    unfold restSym
    exact findLabel_at_seg (by decide) _ _
  have e2 : extractOrFallback symptomsL [nnL, immediateL] symptomsFallback
      (mkReplyL s1.data s2.data s3.data s4.data s5.data s6.data) = s2 := by
    rw [extractOrFallback_eq_content symptomsL [nnL, immediateL] symptomsFallback _
      s2.data _ hfind2 hh2 hl2 hcap2, stringMk_data]
  have halts3 : ∀ A ∈ [nnL, chemicalL], (∃ T, A = '\n' :: T) ∨
      ((∀ c ∈ A, lc c ≠ '\n') ∧ hasCI A s3.data = false) := by
    intro A hA
    rcases List.mem_cons.mp hA with rfl | hA2
    · exact Or.inl ⟨['\n'], rfl⟩
    · rw [List.mem_singleton] at hA2
      subst hA2
      exact Or.inr ⟨by decide, hasCI_content_of_seg h43⟩
  have hcap3 : lazyCapture [nnL, chemicalL]
      (s3.data ++ (nnL ++ restChem s4.data s5.data s6.data)) = some s3.data :=
    lazyCapture_exact hne3
      (boundary_false_mid hn3 halts3
        (Or.inr ⟨'\n' :: restChem s4.data s5.data s6.data, rfl⟩))
      (boundary_at_nn _ (List.mem_cons_self _ _))
  have hfind3 : findLabel immediateL
      (mkReplyL s1.data s2.data s3.data s4.data s5.data s6.data) =
      some (' ' :: (s3.data ++ (nnL ++ restChem s4.data s5.data s6.data))) := by
    unfold mkReplyL
    rw [findLabel_seg_skip (by decide) (by decide) h31]
    unfold restSym
    rw [findLabel_seg_skip (by decide) (by decide) h32]
    unfold restImm
    exact findLabel_at_seg (by decide) _ _
  have e3 : extractOrFallback immediateL [nnL, chemicalL] immediateFallback
      (mkReplyL s1.data s2.data s3.data s4.data s5.data s6.data) = s3 := by
    rw [extractOrFallback_eq_content immediateL [nnL, chemicalL] immediateFallback _
      s3.data _ hfind3 hh3 hl3 hcap3, stringMk_data]
  have halts4 : ∀ A ∈ [nnL, organicL], (∃ T, A = '\n' :: T) ∨
      ((∀ c ∈ A, lc c ≠ '\n') ∧ hasCI A s4.data = false) := by
    intro A hA
    rcases List.mem_cons.mp hA with rfl | hA2
    · exact Or.inl ⟨['\n'], rfl⟩
    · rw [List.mem_singleton] at hA2
      subst hA2
      exact Or.inr ⟨by decide, hasCI_content_of_seg h54⟩
  have hcap4 : lazyCapture [nnL, organicL]
      (s4.data ++ (nnL ++ restOrg s5.data s6.data)) = some s4.data :=
    lazyCapture_exact hne4
      (boundary_false_mid hn4 halts4 (Or.inr ⟨'\n' :: restOrg s5.data s6.data, rfl⟩))
      (boundary_at_nn _ (List.mem_cons_self _ _))
  have hfind4 : findLabel chemicalL
      (mkReplyL s1.data s2.data s3.data s4.data s5.data s6.data) =
      some (' ' :: (s4.data ++ (nnL ++ restOrg s5.data s6.data))) := by
    unfold mkReplyL
    rw [findLabel_seg_skip (by decide) (by decide) h41]
    unfold restSym
    rw [findLabel_seg_skip (by decide) (by decide) h42]
    unfold restImm
    rw [findLabel_seg_skip (by decide) (by decide) h43]
    unfold restChem
    exact findLabel_at_seg (by decide) _ _
  have e4 : extractOrFallback chemicalL [nnL, organicL] chemicalFallback
      (mkReplyL s1.data s2.data s3.data s4.data s5.data s6.data) = s4 := by
    rw [extractOrFallback_eq_content chemicalL [nnL, organicL] chemicalFallback _
      s4.data _ hfind4 hh4 hl4 hcap4, stringMk_data]
  have halts5 : ∀ A ∈ [nnL, preventionL], (∃ T, A = '\n' :: T) ∨
      ((∀ c ∈ A, lc c ≠ '\n') ∧ hasCI A s5.data = false) := by
    intro A hA
    rcases List.mem_cons.mp hA with rfl | hA2
    · exact Or.inl ⟨['\n'], rfl⟩
    · rw [List.mem_singleton] at hA2
      subst hA2
      exact Or.inr ⟨by decide, hasCI_content_of_seg h65⟩
  have hcap5 : lazyCapture [nnL, preventionL]
      (s5.data ++ (nnL ++ restPrev s6.data)) = some s5.data :=
    lazyCapture_exact hne5
      (boundary_false_mid hn5 halts5 (Or.inr ⟨'\n' :: restPrev s6.data, rfl⟩))
      (boundary_at_nn _ (List.mem_cons_self _ _))
  have hfind5 : findLabel organicL
      (mkReplyL s1.data s2.data s3.data s4.data s5.data s6.data) =
      some (' ' :: (s5.data ++ (nnL ++ restPrev s6.data))) := by
    unfold mkReplyL
    rw [findLabel_seg_skip (by decide) (by decide) h51]
    unfold restSym
    rw [findLabel_seg_skip (by decide) (by decide) h52]
    unfold restImm
    rw [findLabel_seg_skip (by decide) (by decide) h53]
    unfold restChem
    rw [findLabel_seg_skip (by decide) (by decide) h54]
    unfold restOrg
    exact findLabel_at_seg (by decide) _ _
  have e5 : extractOrFallback organicL [nnL, preventionL] organicFallback
      (mkReplyL s1.data s2.data s3.data s4.data s5.data s6.data) = s5 := by
    rw [extractOrFallback_eq_content organicL [nnL, preventionL] organicFallback _
      s5.data _ hfind5 hh5 hl5 hcap5, stringMk_data]
  have halts6 : ∀ A ∈ [nnL], (∃ T, A = '\n' :: T) ∨
      ((∀ c ∈ A, lc c ≠ '\n') ∧ hasCI A s6.data = false) := by
    intro A hA
    rw [List.mem_singleton] at hA
    subst hA
    exact Or.inl ⟨['\n'], rfl⟩
  have hcap6 : lazyCapture [nnL] (s6.data ++ []) = some s6.data :=
    lazyCapture_exact hne6
      (boundary_false_mid hn6 halts6 (Or.inl rfl)) rfl
  have hfind6 : findLabel preventionL
      (mkReplyL s1.data s2.data s3.data s4.data s5.data s6.data) =
      some (' ' :: (s6.data ++ [])) := by
    unfold mkReplyL
    rw [findLabel_seg_skip (by decide) (by decide) h61]
    unfold restSym
    rw [findLabel_seg_skip (by decide) (by decide) h62]
    unfold restImm
    rw [findLabel_seg_skip (by decide) (by decide) h63]
    unfold restChem
    rw [findLabel_seg_skip (by decide) (by decide) h64]
    unfold restOrg
    rw [findLabel_seg_skip (by decide) (by decide) h65]
    unfold restPrev
    rw [show segL preventionL s6.data = segL preventionL s6.data ++ []
      from (List.append_nil _).symm]
    exact findLabel_at_seg (by decide) _ _
  have e6 : extractOrFallback preventionL [nnL] preventionFallback
      (mkReplyL s1.data s2.data s3.data s4.data s5.data s6.data) = s6 := by
    rw [extractOrFallback_eq_content preventionL [nnL] preventionFallback _
      s6.data _ hfind6 hh6 hl6 hcap6, stringMk_data]
  show Except.ok (parseFields (mkReply s1 s2 s3 s4 s5 s6).data) =
    Except.ok (Advice.mk s1 s2 s3 s4 s5 s6)
  rw [mkReply_data]
  unfold parseFields
  rw [e1, e2, e3, e4, e5, e6]

/-- Witness for C4 on a concrete six-section reply. -/
theorem C4_parse_extracts_sections_witness :
    c4ok "fungal spores" "brown spots" "remove leaves" "mancozeb 2g per litre"
      "neem oil" "rotate crops" ∧
    parseAdviceResponse (some (mkReply "fungal spores" "brown spots" "remove leaves"
      "mancozeb 2g per litre" "neem oil" "rotate crops")) =
      Except.ok ⟨"fungal spores", "brown spots", "remove leaves",
        "mancozeb 2g per litre", "neem oil", "rotate crops"⟩ :=
  ⟨by unfold c4ok; decide, C4_parse_extracts_sections _ _ _ _ _ _ (by unfold c4ok; decide)⟩

end CropAdvice
